import Mathlib

/-!
Verification development for the AcroForm field engine of the `pdf-form`
crate (`src/pdfformfill.rs`).  The Rust code is shallowly embedded:

* lopdf `Object` values become the inductive `Object`; dictionaries are
  association lists preserving insertion order (lopdf's `Dictionary` is a
  linked hash map).  Dictionary keys and PDF name payloads are byte strings
  in lopdf; every key or name the engine ever compares or produces passes
  through `str::from_utf8` / `String::from_utf8` (panicking on invalid
  UTF-8), so they are modelled directly as Lean `String`s, while PDF
  *literal string* payloads — whose raw bytes matter to the name decoder and
  to the UTF-16 text writer — are modelled as byte lists (`List Nat`, each
  entry a `u8` value).
* Every Rust `.unwrap()` / slice index that can panic is modelled by
  `Option`, with `none` meaning the process aborts; fallible operations
  returning `Result` keep their error values in `Except`.
* Mutating methods take the `Form` and return the new `Form` next to the
  `Result` value, mirroring `&mut self` plus the returned `Result`.
-/

set_option maxRecDepth 10000

namespace PdfForm

/-- First-match lookup in an association list (lopdf `Dictionary::get`,
`BTreeMap::get`, `HashMap::get`). -/
def assocGet {α β : Type} [DecidableEq α] : List (α × β) → α → Option β
  | [], _ => none
  | (k, v) :: rest, key => if k = key then some v else assocGet rest key

/-- Insert-or-update in an association list: an existing key keeps its
position and gets the new value, a new key is appended (lopdf
`Dictionary::set`, map `insert`). -/
def assocSet {α β : Type} [DecidableEq α] : List (α × β) → α → β → List (α × β)
  | [], key, val => [(key, val)]
  | (k, v) :: rest, key, val =>
    if k = key then (k, val) :: rest else (k, v) :: assocSet rest key val

/-- Remove the entry with the given key (lopdf `Dictionary::remove`). -/
def assocRemove {α β : Type} [DecidableEq α] : List (α × β) → α → List (α × β)
  | [], _ => []
  | (k, v) :: rest, key => if k = key then rest else (k, v) :: assocRemove rest key

/-- lopdf `StringFormat`. -/
inductive StringFormat where
  | Literal
  | Hexadecimal
deriving DecidableEq

/-- lopdf `Object`.  Payloads irrelevant to the engine (reals, streams)
are omitted: the engine's typed accessors fail on them exactly as they fail
on `Boolean`. -/
inductive Object where
  | Null
  | Boolean (b : Bool)
  | Integer (i : Int)
  | Name (s : String)
  | Str (bytes : List Nat) (fmt : StringFormat)
  | Array (elems : List Object)
  | Dict (entries : List (String × Object))
  | Reference (oid : Nat)

/-- lopdf `Object::as_dict` / `as_dict_mut`. -/
def Object.asDict : Object → Option (List (String × Object))
  | Object.Dict entries => some entries
  | _ => none

/-- lopdf `Object::as_array` / `as_array_mut`. -/
def Object.asArray : Object → Option (List Object)
  | Object.Array elems => some elems
  | _ => none

/-- lopdf `Object::as_name_str` (the name bytes are modelled as text, see
the file header). -/
def Object.asNameStr : Object → Option String
  | Object.Name s => some s
  | _ => none

/-- lopdf `Object::as_i64`. -/
def Object.asI64 : Object → Option Int
  | Object.Integer i => some i
  | _ => none

/-- lopdf `Object::as_reference`. -/
def Object.asReference : Object → Option Nat
  | Object.Reference oid => some oid
  | _ => none

/-- `lopdf::Document`: the indirect-object store plus the trailer. -/
structure Document where
  objects : List (Nat × Object)
  trailer : List (String × Object)

/-- `doc.objects.get(&oid)`. -/
def objGet (doc : Document) (oid : Nat) : Option Object :=
  assocGet doc.objects oid

/-- Writing through `doc.objects.get_mut(&oid)`. -/
def docSet (doc : Document) (oid : Nat) (obj : Object) : Document :=
  { doc with objects := assocSet doc.objects oid obj }

/-- Dictionary lookup, `dict.get(key)`. -/
def dictGet (d : List (String × Object)) (key : String) : Option Object :=
  assocGet d key

/-- `dict.has(key)`. -/
def dictHas (d : List (String × Object)) (key : String) : Bool :=
  (assocGet d key).isSome

/-- `dict.set(key, value)`. -/
def dictSet (d : List (String × Object)) (key : String) (v : Object) :
    List (String × Object) :=
  assocSet d key v

/-- `dict.remove(key)`. -/
def dictRemove (d : List (String × Object)) (key : String) :
    List (String × Object) :=
  assocRemove d key

/-- `pdfformfill::Form`: the document plus the name → object-id index. -/
structure Form where
  doc : Document
  form_fields : List (String × Nat)

/-- `pdfformfill::FieldType`. -/
inductive FieldType where
  | Button
  | Radio
  | CheckBox
  | ListBox
  | ComboBox
  | Text
deriving DecidableEq

/-- `pdfformfill::FieldState`. -/
inductive FieldState where
  | Button
  | Radio (selected : String) (options : List String)
  | CheckBox (is_checked : Bool)
  | ListBox (selected : List String) (options : List String) (multiselect : Bool)
  | ComboBox (selected : List String) (options : List String) (multiselect : Bool)
  | Text (text : String)
deriving DecidableEq

/-- `pdfformfill::LoadError`. -/
inductive LoadError where
  | IoError
  | DictionaryKeyNotFound
  | NoSuchReference (oid : Nat)
  | NotAReference
  | UnexpectedType
deriving DecidableEq

/-- `pdfformfill::ValueError`. -/
inductive ValueError where
  | TypeMismatch
  | InvalidSelection
  | TooManySelected
deriving DecidableEq

/-- `pdfformfill::FieldError` (`FieldError::new(error, field, value)`). -/
structure FieldError where
  error : ValueError
  field : String
  value : String
deriving DecidableEq

/-! ### String codecs -/

/-- Decoding of a `&[u16]` slice by `String::from_utf16`: code units below
the surrogate range decode to themselves, a high surrogate must be followed
by a low surrogate (together selecting a supplementary code point), and any
lone surrogate (or out-of-`u16`-range unit) fails. -/
def utf16Decode : List Nat → Option (List Char)
  | [] => some []
  | u :: rest =>
    if u < 0xD800 ∨ (0xE000 ≤ u ∧ u < 0x10000) then
      (utf16Decode rest).map (fun cs => Char.ofNat u :: cs)
    else if 0xD800 ≤ u ∧ u < 0xDC00 then
      match rest with
      | [] => none
      | v :: rest2 =>
        if 0xDC00 ≤ v ∧ v < 0xE000 then
          (utf16Decode rest2).map
            (fun cs => Char.ofNat (0x10000 + (u - 0xD800) * 0x400 + (v - 0xDC00)) :: cs)
        else none
    else none

/-- `Form::encode_form_name` — the `T`-entry byte-string decoder, modelled
instruction by instruction from the source: allocate a zero vector of the
*full* input length, then for byte `i` (counting after the skipped 2-byte
BOM) *assign* `byte << 8` to slot `i / 2` when `i` is even and *assign*
`byte` (overwriting the previous value) when `i` is odd; truncate at the
first zero slot; decode the remaining slots as UTF-16. -/
def encode_form_name (string_u8 : List Nat) : Option String :=
  let string_u16 :=
    ((string_u8.drop 2).enum.foldl
      (fun acc p =>
        acc.set (p.1 / 2) (if p.1 % 2 = 0 then p.2 * 256 % 65536 else p.2))
      (List.replicate string_u8.length 0))
  let str_end := string_u16.findIdx (fun x => x = 0)
  (utf16Decode (string_u16.take str_end)).map (fun cs => String.mk cs)

/-- UTF-8 encoding of one scalar value (`String::into_bytes` /
`str::as_bytes`, per character). -/
def utf8EncodeChar (c : Char) : List Nat :=
  let n := c.toNat
  if n < 0x80 then [n]
  else if n < 0x800 then [0xC0 + n / 64, 0x80 + n % 64]
  else if n < 0x10000 then [0xE0 + n / 4096, 0x80 + n / 64 % 64, 0x80 + n % 64]
  else [0xF0 + n / 262144, 0x80 + n / 4096 % 64, 0x80 + n / 64 % 64, 0x80 + n % 64]

/-- `String::into_bytes`: the UTF-8 bytes of a string. -/
def utf8Encode (s : String) : List Nat :=
  (s.data.map utf8EncodeChar).flatten

/-- Strict UTF-8 validation and decoding (`str::from_utf8` /
`String::from_utf8`): rejects overlong forms, surrogates, values beyond
U+10FFFF, truncated sequences and stray continuation bytes. -/
def utf8Decode : List Nat → Option (List Char)
  | [] => some []
  | b :: rest =>
    if b < 0x80 then (utf8Decode rest).map (fun cs => Char.ofNat b :: cs)
    else if b < 0xC2 then none
    else if b < 0xE0 then
      match rest with
      | [] => none
      | b1 :: rest1 =>
        if 0x80 ≤ b1 ∧ b1 < 0xC0 then
          (utf8Decode rest1).map (fun cs => Char.ofNat ((b - 0xC0) * 64 + (b1 - 0x80)) :: cs)
        else none
    else if b < 0xF0 then
      match rest with
      | b1 :: b2 :: rest2 =>
        if (if b = 0xE0 then 0xA0 else 0x80) ≤ b1 ∧ b1 ≤ (if b = 0xED then 0x9F else 0xBF)
            ∧ 0x80 ≤ b2 ∧ b2 < 0xC0 then
          (utf8Decode rest2).map
            (fun cs => Char.ofNat ((b - 0xE0) * 4096 + (b1 - 0x80) * 64 + (b2 - 0x80)) :: cs)
        else none
      | _ => none
    else if b < 0xF5 then
      match rest with
      | b1 :: b2 :: b3 :: rest3 =>
        if (if b = 0xF0 then 0x90 else 0x80) ≤ b1 ∧ b1 ≤ (if b = 0xF4 then 0x8F else 0xBF)
            ∧ 0x80 ≤ b2 ∧ b2 < 0xC0 ∧ 0x80 ≤ b3 ∧ b3 < 0xC0 then
          (utf8Decode rest3).map
            (fun cs =>
              Char.ofNat ((b - 0xF0) * 262144 + (b1 - 0x80) * 4096 + (b2 - 0x80) * 64
                + (b3 - 0x80)) :: cs)
        else none
      | _ => none
    else none

/-- `str::from_utf8(..).unwrap().to_owned()` as a `String` producer. -/
def utf8DecodeStr (bytes : List Nat) : Option String :=
  (utf8Decode bytes).map (fun cs => String.mk cs)

/-- `ToPdfUTF16::to_pdf_utf16`: the `FE FF` byte-order marker followed by
each UTF-16 code unit of the text (`String::encode_utf16`, which does emit
surrogate pairs) as two big-endian bytes. -/
def encodeUtf16Char (c : Char) : List Nat :=
  let n := c.toNat
  if n < 0x10000 then [n]
  else [0xD800 + (n - 0x10000) / 0x400, 0xDC00 + (n - 0x10000) % 0x400]

/-- The full `to_pdf_utf16` byte string. -/
def to_pdf_utf16 (s : String) : List Nat :=
  0xFE :: 0xFF ::
    (((s.data.map encodeUtf16Char).flatten).map (fun u => [u / 256, u % 256])).flatten

/-! ### Type classifier -/

/-- The shared flag computation of `Form::get_type`:
`field.get(b"Ff").unwrap_or(&Object::Integer(0)).as_i64().unwrap() as u32`.
An absent `Ff` is the integer 0; a present non-integer `Ff` panics; the
`i64 → u32` cast keeps the low 32 bits.  (`from_bits_truncate` additionally
drops undefined flag bits, which does not affect the single defined bits the
classifier tests.)  The same expression appears verbatim in both the `Btn`
and the `Ch` branch of the source. -/
def fieldFlags (field : List (String × Object)) : Option Nat :=
  match dictGet field "Ff" with
  | none => some 0
  | some o => (Object.asI64 o).map (fun i => (Int.emod i (2 ^ 32)).toNat)

/-- `Form::get_type`. -/
def get_type (form : Form) (name : String) : Option (Except LoadError FieldType) :=
  match assocGet form.form_fields name with
  | none => some (Except.error LoadError.DictionaryKeyNotFound)
  | some fieldId =>
    match (objGet form.doc fieldId).bind Object.asDict with
    | none => none
    | some field =>
      match (dictGet field "FT").bind Object.asNameStr with
      | none => none
      | some typeStr =>
        if typeStr = "Btn" then
          match fieldFlags field with
          | none => none
          | some flags =>
            some (Except.ok
              (if flags.testBit 15 then FieldType.Radio
               else if flags.testBit 16 then FieldType.Button
               else FieldType.CheckBox))
        else if typeStr = "Ch" then
          match fieldFlags field with
          | none => none
          | some flags =>
            some (Except.ok
              (if flags.testBit 17 then FieldType.ComboBox else FieldType.ListBox))
        else some (Except.ok FieldType.Text)

/-! ### State decoding -/

/-- `PdfObjectDeref::deref`: only a reference dereferences; a missing
target is `NoSuchReference`, anything else is `NotAReference`. -/
def derefE (doc : Document) (o : Object) : Except LoadError Object :=
  match o with
  | Object.Reference oid =>
    match objGet doc oid with
    | some x => Except.ok x
    | none => Except.error (LoadError.NoSuchReference oid)
  | _ => Except.error LoadError.NotAReference

/-- The `AP`/`N` key harvest for one kid inside `Form::get_possibilities`
(every step `.unwrap()`ed in the source). -/
def kidKeys (doc : Document) (kid : Object) : Option (List String) :=
  match derefE doc kid with
  | Except.error _ => none
  | Except.ok kidObj =>
    match Object.asDict kidObj with
    | none => none
    | some kd =>
      match (dictGet kd "AP").bind Object.asDict with
      | none => none
      | some ap =>
        match (dictGet ap "N").bind Object.asDict with
        | none => none
        | some n => some (n.map Prod.fst)

/-- The `for kid in kids` accumulation of `Form::get_possibilities`. -/
def possFold (doc : Document) : List Object → Option (List String)
  | [] => some []
  | kid :: rest =>
    match kidKeys doc kid with
    | none => none
    | some ks => (possFold doc rest).map (fun more => ks ++ more)

/-- `Form::get_possibilities`: the union (in kid order) of the `AP.N` key
sets of the field's kids; an absent or non-array `Kids` yields no options. -/
def get_possibilities (doc : Document) (oid : Nat) : Option (List String) :=
  match (objGet doc oid).bind Object.asDict with
  | none => none
  | some dict =>
    match dictGet dict "Kids" with
    | some (Object.Array kids) => possFold doc kids
    | _ => some []

/-- The `selected` computation of the Radio arm of `Form::get_state`:
`V` as a name if present, else `AS` as a name if present, else `""`. -/
def radioSelected (field : List (String × Object)) : Option String :=
  match dictGet field "V" with
  | some v => Object.asNameStr v
  | none =>
    match dictGet field "AS" with
    | some a => Object.asNameStr a
    | none => some ""

/-- The Radio arm of `Form::get_state`. -/
def radioState (doc : Document) (fieldId : Nat) (field : List (String × Object)) :
    Option FieldState :=
  match radioSelected field with
  | none => none
  | some selected =>
    match get_possibilities doc fieldId with
    | none => none
    | some options => some (FieldState.Radio selected options)

/-- The CheckBox arm of `Form::get_state`: checked iff the `V` (else `AS`)
name equals `"Yes"`; absent both ways means unchecked. -/
def checkBoxState (field : List (String × Object)) : Option FieldState :=
  match dictGet field "V" with
  | some v => (Object.asNameStr v).map (fun s => FieldState.CheckBox (s = "Yes"))
  | none =>
    match dictGet field "AS" with
    | some a => (Object.asNameStr a).map (fun s => FieldState.CheckBox (s = "Yes"))
    | none => some (FieldState.CheckBox false)

/-- The element walk of the `V`-array case of the choice `selected`
computation: literal-string elements decode and contribute, everything else
is skipped. -/
def selectedFromArray : List Object → Option (List String)
  | [] => some []
  | Object.Str s StringFormat.Literal :: rest =>
    match utf8DecodeStr s with
    | none => none
    | some t => (selectedFromArray rest).map (fun ts => t :: ts)
  | _ :: rest => selectedFromArray rest

/-- The `selected` computation shared by the ListBox and ComboBox arms of
`Form::get_state` (the source repeats the block verbatim in both arms):
a literal-string `V` is a singleton, an array `V` contributes its
literal-string elements, anything else (or no `V`) is empty. -/
def choiceSelected (field : List (String × Object)) : Option (List String) :=
  match dictGet field "V" with
  | some (Object.Str s StringFormat.Literal) => (utf8DecodeStr s).map (fun t => [t])
  | some (Object.Array chosen) => selectedFromArray chosen
  | some _ => some []
  | none => some []

/-- One `Opt`-array entry of the choice `options` computation: a literal
string contributes itself; an array contributes its element at index 1 when
that is a literal string (indexing `arr[1]` panics when the array is
shorter) and the empty string otherwise; anything else contributes the
empty string. -/
def optEntry : Object → Option String
  | Object.Str s StringFormat.Literal => utf8DecodeStr s
  | Object.Array arr =>
    match arr.get? 1 with
    | none => none
    | some (Object.Str s StringFormat.Literal) => utf8DecodeStr s
    | some _ => some ""
  | _ => some ""

/-- The `options` computation shared by the ListBox and ComboBox arms:
map `optEntry` over the `Opt` array and drop empty strings; no (or a
non-array) `Opt` yields no options. -/
def choiceOptions (field : List (String × Object)) : Option (List String) :=
  match dictGet field "Opt" with
  | some (Object.Array opts) =>
    (opts.mapM optEntry).map (List.filter (fun s => s.length > 0))
  | _ => some []

/-- The `multiselect` computation shared by the ListBox and ComboBox arms:
`field.get(b"Ff").unwrap().as_i64().unwrap()` — note the bare `unwrap`,
panicking on an absent `Ff` (unlike `get_type`, which defaults to 0) —
then bit `MULTISELECT` (`0x200000`). -/
def choiceMultiselect (field : List (String × Object)) : Option Bool :=
  match dictGet field "Ff" with
  | none => none
  | some o => (Object.asI64 o).map (fun i => ((Int.emod i (2 ^ 32)).toNat).testBit 21)

/-- The three struct fields of the ListBox/ComboBox arms, in source
evaluation order. -/
def choiceState (field : List (String × Object)) :
    Option (List String × List String × Bool) :=
  match choiceSelected field with
  | none => none
  | some selected =>
    match choiceOptions field with
    | none => none
    | some options =>
      match choiceMultiselect field with
      | none => none
      | some multiselect => some (selected, options, multiselect)

/-- The Text arm of `Form::get_state`: a literal-string `V` decodes, any
other (or absent) `V` is the empty text. -/
def textState (field : List (String × Object)) : Option FieldState :=
  match dictGet field "V" with
  | some (Object.Str s StringFormat.Literal) => (utf8DecodeStr s).map FieldState.Text
  | _ => some (FieldState.Text "")

/-- `Form::get_state`: look the field up (panicking on a missing name or a
non-dictionary object), classify it via `get_type` (whose `Err` is
`unwrap`ed, another panic), and decode the arm matching the type. -/
def get_state (form : Form) (name : String) : Option FieldState :=
  match assocGet form.form_fields name with
  | none => none
  | some fieldId =>
    match (objGet form.doc fieldId).bind Object.asDict with
    | none => none
    | some field =>
      match get_type form name with
      | some (Except.ok FieldType.Button) => some FieldState.Button
      | some (Except.ok FieldType.Radio) => radioState form.doc fieldId field
      | some (Except.ok FieldType.CheckBox) => checkBoxState field
      | some (Except.ok FieldType.ListBox) =>
        (choiceState field).map (fun t => FieldState.ListBox t.1 t.2.1 t.2.2)
      | some (Except.ok FieldType.ComboBox) =>
        (choiceState field).map (fun t => FieldState.ComboBox t.1 t.2.1 t.2.2)
      | some (Except.ok FieldType.Text) => textState field
      | _ => none

/-! ### Mutation

Each mutator takes the form and returns the new form next to the returned
`Result` value (mirroring `&mut self`); the arms of the source that return
an error perform no `set`/`remove`, so those arms return the input form. -/

/-- `Form::set_text`: only on a Text-classified field; writes the UTF-16
encoding of the text as literal-string `V` and removes `AP`. -/
def set_text (form : Form) (name : String) (s : String) :
    Option (Form × Except ValueError Unit) :=
  match get_type form name with
  | none => none
  | some (Except.ok FieldType.Text) =>
    match assocGet form.form_fields name with
    | none => none
    | some fieldId =>
      match (objGet form.doc fieldId).bind Object.asDict with
      | none => none
      | some field =>
        let field' :=
          dictRemove (dictSet field "V" (Object.Str (to_pdf_utf16 s) StringFormat.Literal)) "AP"
        some ({ form with doc := docSet form.doc fieldId (Object.Dict field') }, Except.ok ())
  | some _ => some (form, Except.error ValueError.TypeMismatch)

/-- One iteration of the kid loop in `Form::set_radio`: dereference the kid
(every step `unwrap`ed), and set its `AS` to the choice when the kid's
`AP.N` dictionary has the choice as a key, to `"Off"` otherwise.  The kid
update goes to the *live* object map. -/
def set_radio_kid (doc : Document) (choice : String) (kid : Object) : Option Document :=
  match Object.asReference kid with
  | none => none
  | some kidId =>
    match objGet doc kidId with
    | none => none
    | some kidObj =>
      match Object.asDict kidObj with
      | none => none
      | some kidDict =>
        match (dictGet kidDict "AP").bind Object.asDict with
        | none => none
        | some ap =>
          match (dictGet ap "N").bind Object.asDict with
          | none => none
          | some n =>
            let newAS := Object.Name (if dictHas n choice then choice else "Off")
            some (docSet doc kidId (Object.Dict (dictSet kidDict "AS" newAS)))

/-- The kid loop of `Form::set_radio`, threading the live document. -/
def foldKids (doc : Document) (choice : String) : List Object → Option Document
  | [] => some doc
  | kid :: rest =>
    match set_radio_kid doc choice kid with
    | none => none
    | some d => foldKids d choice rest

/-- `Form::set_radio`.  The source clones `self.doc.objects`, takes the
field dictionary and its `Kids` array from that clone, updates each kid's
`AS` in the live map, and finally performs `field.set("V", choice)` — on
the clone, which is then dropped: the kid updates persist, the `V` write
does not.  The model therefore reads `Kids` from the (unchanged) live map
and returns the document with only the kid updates applied. -/
def set_radio (form : Form) (name : String) (choice : String) :
    Option (Form × Except ValueError Unit) :=
  match assocGet form.form_fields name with
  | none => none
  | some fieldId =>
    match get_state form name with
    | none => none
    | some (FieldState.Radio _ options) =>
      if options.contains choice then
        match (objGet form.doc fieldId).bind Object.asDict with
        | none => none
        | some field =>
          match (dictGet field "Kids").bind Object.asArray with
          | none => none
          | some kids =>
            match foldKids form.doc choice kids with
            | none => none
            | some doc' => some ({ form with doc := doc' }, Except.ok ())
      else some (form, Except.error ValueError.InvalidSelection)
    | some _ => some (form, Except.error ValueError.TypeMismatch)

/-- `Form::set_check_box`: only on a CheckBox-classified field; sets both
`V` and `AS` to the name `"Yes"` or `"Off"`. -/
def set_check_box (form : Form) (name : String) (is_checked : Bool) :
    Option (Form × Except ValueError Unit) :=
  match get_type form name with
  | none => none
  | some (Except.ok FieldType.CheckBox) =>
    let state := Object.Name (if is_checked then "Yes" else "Off")
    match assocGet form.form_fields name with
    | none => none
    | some fieldId =>
      match (objGet form.doc fieldId).bind Object.asDict with
      | none => none
      | some field =>
        some
          ({ form with
              doc := docSet form.doc fieldId
                (Object.Dict (dictSet (dictSet field "V" state) "AS" state)) },
           Except.ok ())
  | some _ => some (form, Except.error ValueError.TypeMismatch)

/-- The validation-and-write tail of `Form::set_choice`, shared by the
ListBox and ComboBox arms: every choice must be an option
(`choices.iter().fold(true, |a, h| options.contains(h) && a)`), a
single-select field rejects more than one choice, and `V` becomes null /
one literal string / an array of literal strings by cardinality. -/
def set_choice_write (form : Form) (fieldId : Nat) (options : List String)
    (multiselect : Bool) (choices : List String) :
    Option (Form × Except ValueError Unit) :=
  if choices.foldl (fun a h => options.contains h && a) true then
    if !multiselect && choices.length > 1 then
      some (form, Except.error ValueError.TooManySelected)
    else
      match (objGet form.doc fieldId).bind Object.asDict with
      | none => none
      | some field =>
        let v :=
          match choices with
          | [] => Object.Null
          | [c] => Object.Str (utf8Encode c) StringFormat.Literal
          | _ =>
            Object.Array (choices.map (fun x => Object.Str (utf8Encode x) StringFormat.Literal))
        some
          ({ form with doc := docSet form.doc fieldId (Object.Dict (dictSet field "V" v)) },
           Except.ok ())
  else some (form, Except.error ValueError.InvalidSelection)

/-- `Form::set_choice`. -/
def set_choice (form : Form) (name : String) (choices : List String) :
    Option (Form × Except ValueError Unit) :=
  match assocGet form.form_fields name with
  | none => none
  | some fieldId =>
    match get_state form name with
    | none => none
    | some (FieldState.ListBox _ options multiselect) =>
      set_choice_write form fieldId options multiselect choices
    | some (FieldState.ComboBox _ options multiselect) =>
      set_choice_write form fieldId options multiselect choices
    | some _ => some (form, Except.error ValueError.TypeMismatch)

/-! ### Fuzzy fill resolver -/

/-- Match `\d+]` after an already-consumed `[`: one or more digits followed
by the literal `]`, returning the remainder.  (Digits are contiguous, so
regex backtracking over `\d+` cannot produce any other match.) -/
def afterIndex : List Char → Option (List Char)
  | [] => none
  | c :: rest => if c.isDigit then afterIndexCont rest else none
where
  afterIndexCont : List Char → Option (List Char)
    | [] => none
    | c :: rest =>
      if c.isDigit then afterIndexCont rest
      else if c = ']' then some rest else none

/-- `Regex::new(r"\[\d+]").replace(name, "")`: remove the leftmost
occurrence of a bracketed digit run (if any). -/
def stripIndexChars : List Char → List Char
  | [] => []
  | c :: rest =>
    if c = '[' then
      match afterIndex rest with
      | some rest' => rest'
      | none => c :: stripIndexChars rest
    else c :: stripIndexChars rest

/-- String-level wrapper for the regex replacement. -/
def stripIndex (s : String) : String :=
  String.mk (stripIndexChars s.data)

/-- Split a character list on a separator, `str::split` style: the empty
input gives one empty group, a separator always starts a new group. -/
def splitChars (sep : Char) : List Char → List (List Char)
  | [] => [[]]
  | c :: rest =>
    let r := splitChars sep rest
    if c = sep then [] :: r
    else
      match r with
      | [] => [[c]]
      | g :: gs => (c :: g) :: gs

/-- `field_name.split(".")` from `Form::fill`. -/
def splitOnDot (s : String) : List String :=
  (splitChars '.' s.data).map String.mk

/-- The `while` loop of `Form::fill`, two source iterations per step: with
segments remaining and no direct hit, first retry with the bracketed index
stripped from the candidate, then drop the leading segment of the original
split and retry with the re-joined suffix.  Returns the final
`(part_names, name)` pair. -/
def resolveName (fieldsMap : List (String × String)) :
    List String → String → List String × String
  | [], name => ([], name)
  | p :: ps, name =>
    if (assocGet fieldsMap name).isSome then (p :: ps, name)
    else
      let name' := stripIndex name
      if (assocGet fieldsMap name').isSome then (p :: ps, name')
      else resolveName fieldsMap ps (String.intercalate "." ps)

/-- `str::to_lowercase` as used by the CheckBox arm of `fill` (the compared
literal `"true"` is ASCII). -/
def toLowercaseStr (s : String) : String :=
  String.mk (s.data.map Char.toLower)

/-- Wrap a mutator result the way the `map_err(map_err)?` of `fill` does:
an error becomes a `FieldError` carrying the matched key and the raw input
value. -/
def wrapResult (name mapV : String) :
    Form × Except ValueError Unit → Form × Option FieldError
  | (f, Except.ok _) => (f, none)
  | (f, Except.error e) => (f, some (FieldError.mk e name mapV))

/-- The body of the `for field_name in ...` loop of `Form::fill` for one
field: resolve the name, skip when the segments ran out, fetch the mapped
value (`unwrap`), and dispatch on the freshly classified type — Radio,
CheckBox (input compared case-insensitively to `"true"`) and Text mutate;
every other type, and a classification error, is skipped. -/
def fillField (fieldsMap : List (String × String)) (form : Form) (fieldName : String) :
    Option (Form × Option FieldError) :=
  let pr := resolveName fieldsMap (splitOnDot fieldName) fieldName
  if pr.1 = [] then some (form, none)
  else
    match assocGet fieldsMap pr.2 with
    | none => none
    | some mapV =>
      match get_type form fieldName with
      | none => none
      | some (Except.ok FieldType.Radio) =>
        (set_radio form fieldName mapV).map (wrapResult pr.2 mapV)
      | some (Except.ok FieldType.CheckBox) =>
        (set_check_box form fieldName (toLowercaseStr mapV = "true")).map (wrapResult pr.2 mapV)
      | some (Except.ok FieldType.Text) =>
        (set_text form fieldName mapV).map (wrapResult pr.2 mapV)
      | some _ => some (form, none)

/-- The `for` loop of `Form::fill` over the snapshot of index keys: the
first `FieldError` aborts (`?`), leaving the document as the previous
iterations built it. -/
def fillLoop (fieldsMap : List (String × String)) :
    Form → List String → Option (Form × Option FieldError)
  | form, [] => some (form, none)
  | form, n :: rest =>
    match fillField fieldsMap form n with
    | none => none
    | some (f', some e) => some (f', some e)
    | some (f', none) => fillLoop fieldsMap f' rest

/-- `Form::fill` (the input `HashMap` is modelled as an association list). -/
def fill (form : Form) (fieldsMap : List (String × String)) :
    Option (Form × Option FieldError) :=
  fillLoop fieldsMap form (form.form_fields.map Prod.fst)

/-- `Form::get_field_names`. -/
def get_field_names (form : Form) : List String :=
  form.form_fields.map Prod.fst

/-! ### Loading -/

/-- `Form::get_field_name`: the field's `T` entry must be a string whose
bytes decode through `encode_form_name`. -/
def get_field_name (doc : Document) (fieldId : Nat) : Option String :=
  match (objGet doc fieldId).bind Object.asDict with
  | none => none
  | some fieldDict =>
    match dictGet fieldDict "T" with
    | some (Object.Str bytes _) => encode_form_name bytes
    | _ => none

/-- `Form::get_full_name`: the dot-joined ancestor path, following
`Parent` references recursively.  The source recursion is unbounded (a
cyclic `Parent` chain crashes it); the model uses fuel, and the caller
passes one more than the number of objects, enough for every acyclic
chain. -/
def get_full_name (doc : Document) : Nat → Nat → Option String
  | 0, _ => none
  | fuel + 1, fieldId =>
    match objGet doc fieldId with
    | none => none
    | some field =>
      match Object.asDict field with
      | none => none
      | some fieldDict =>
        match get_field_name doc fieldId with
        | none => none
        | some fieldName =>
          match dictGet fieldDict "Parent" with
          | some (Object.Reference parentRef) =>
            match get_full_name doc fuel parentRef with
            | none => none
            | some parentName => some (parentName ++ "." ++ fieldName)
          | _ => some fieldName

/-- The breadth-first field traversal of `Form::load_doc`: dequeue a
reference, dereference it (`?`: a `deref` failure aborts the whole load),
register `full name → id` when the dictionary has `FT` and the name
decodes, and enqueue the `Kids` at the back.  The source loop is unbounded
on a cyclic `Kids` graph; the model uses fuel. -/
def load_loop (doc : Document) :
    Nat → List Object → List (String × Nat) → Option (Except LoadError (List (String × Nat)))
  | _, [], map => some (Except.ok map)
  | 0, _ :: _, _ => none
  | fuel + 1, objref :: rest, map =>
    match derefE doc objref with
    | Except.error e => some (Except.error e)
    | Except.ok (Object.Dict dict) =>
      let queue' :=
        match dictGet dict "Kids" with
        | some (Object.Array kids) => rest ++ kids
        | _ => rest
      if (dictGet dict "FT").isSome then
        match Object.asReference objref with
        | none => none
        | some fieldId =>
          load_loop doc fuel queue'
            (match get_full_name doc (doc.objects.length + 1) fieldId with
             | some nm => assocSet map nm fieldId
             | none => map)
      else load_loop doc fuel queue' map
    | Except.ok _ => load_loop doc fuel rest map

/-- `Form::load_doc`: resolve `Root → AcroForm → Fields` (each `get`
failure is `DictionaryKeyNotFound`, each dereference failure its own
`LoadError`, each type failure `UnexpectedType`; `Fields` itself is read
directly, without dereferencing), then run the traversal. -/
def load_doc (doc : Document) (fuel : Nat) : Option (Except LoadError Form) :=
  match dictGet doc.trailer "Root" with
  | none => some (Except.error LoadError.DictionaryKeyNotFound)
  | some rootRef =>
    match derefE doc rootRef with
    | Except.error e => some (Except.error e)
    | Except.ok rootObj =>
      match Object.asDict rootObj with
      | none => some (Except.error LoadError.UnexpectedType)
      | some catalog =>
        match dictGet catalog "AcroForm" with
        | none => some (Except.error LoadError.DictionaryKeyNotFound)
        | some afRef =>
          match derefE doc afRef with
          | Except.error e => some (Except.error e)
          | Except.ok afObj =>
            match Object.asDict afObj with
            | none => some (Except.error LoadError.UnexpectedType)
            | some acroform =>
              match dictGet acroform "Fields" with
              | none => some (Except.error LoadError.DictionaryKeyNotFound)
              | some fieldsObj =>
                match Object.asArray fieldsObj with
                | none => some (Except.error LoadError.UnexpectedType)
                | some fieldsList =>
                  (load_loop doc fuel fieldsList []).map
                    (Except.map (fun map => Form.mk doc map))

/-! ### Concrete instances used by the claim theorems -/

/-- A radio field dictionary: `FT Btn`, `Ff` with the RADIO bit (1<<15),
two kid widgets, no `V`. -/
def exRadioField : List (String × Object) :=
  [("FT", Object.Name "Btn"), ("Ff", Object.Integer 32768),
   ("Kids", Object.Array [Object.Reference 2, Object.Reference 3])]

/-- First kid widget: appearance state `A`. -/
def exRadioKid2 : List (String × Object) :=
  [("AP", Object.Dict [("N", Object.Dict [("A", Object.Null)])])]

/-- Second kid widget: appearance state `B`. -/
def exRadioKid3 : List (String × Object) :=
  [("AP", Object.Dict [("N", Object.Dict [("B", Object.Null)])])]

/-- Document holding the radio field and its kids. -/
def exRadioDoc : Document :=
  Document.mk
    [(1, Object.Dict exRadioField), (2, Object.Dict exRadioKid2), (3, Object.Dict exRadioKid3)]
    []

/-- Form indexing the radio field as `R`. -/
def exRadioForm : Form := Form.mk exRadioDoc [("R", 1)]

/-- A single-select list box: `FT Ch`, `Ff 0`, options `a` and `b`. -/
def exListField : List (String × Object) :=
  [("FT", Object.Name "Ch"), ("Ff", Object.Integer 0),
   ("Opt", Object.Array
     [Object.Str (utf8Encode "a") StringFormat.Literal,
      Object.Str (utf8Encode "b") StringFormat.Literal])]

/-- Document holding the list-box field. -/
def exListDoc : Document := Document.mk [(1, Object.Dict exListField)] []

/-- Form indexing the list-box field as `L`. -/
def exListForm : Form := Form.mk exListDoc [("L", 1)]

/-- C9 counterexample: a field classified as ListBox whose dictionary has
no `Ff` key.  The claim says `get_state` treats the absent `Ff` as 0 and
returns normally with `multiselect = false`; the embedded code panics
(`field.get(b"Ff").unwrap()`), modelled as `none`. -/
def exListNoFfField : List (String × Object) := [("FT", Object.Name "Ch")]

/-- Document holding the `Ff`-less list-box field. -/
def exListNoFfDoc : Document := Document.mk [(1, Object.Dict exListNoFfField)] []

/-- Form indexing the `Ff`-less list-box field as `L`. -/
def exListNoFfForm : Form := Form.mk exListNoFfDoc [("L", 1)]

/-- A text field indexed under the hierarchical name `Foo[0].Bar`. -/
def exTextField : List (String × Object) := [("FT", Object.Name "Tx")]

/-- Document holding the text field. -/
def exTextDoc : Document := Document.mk [(1, Object.Dict exTextField)] []

/-- Form indexing the text field as `Foo[0].Bar`. -/
def exTextForm : Form := Form.mk exTextDoc [("Foo[0].Bar", 1)]

/-- What registration in the load traversal guarantees about an indexed
object id: it resolves to a dictionary carrying an `FT` key. -/
def registeredOk (doc : Document) (oid : Nat) : Prop :=
  ∃ d, objGet doc oid = some (Object.Dict d) ∧ (dictGet d "FT").isSome

/-- A loadable document whose single field has `FT` but no `T` name. -/
def exNoNameDoc : Document :=
  Document.mk
    [(1, Object.Dict [("AcroForm", Object.Reference 2)]),
     (2, Object.Dict [("Fields", Object.Array [Object.Reference 3])]),
     (3, Object.Dict [("FT", Object.Name "Tx")])]
    [("Root", Object.Reference 1)]

/-- The same document with a decodable field name (`T` holding the
UTF-16BE bytes of `X`). -/
def exNamedDoc : Document :=
  Document.mk
    [(1, Object.Dict [("AcroForm", Object.Reference 2)]),
     (2, Object.Dict [("Fields", Object.Array [Object.Reference 3])]),
     (3, Object.Dict
       [("FT", Object.Name "Tx"),
        ("T", Object.Str [0xFE, 0xFF, 0x00, 0x58] StringFormat.Literal)])]
    [("Root", Object.Reference 1)]

/-! ### C1 — set_radio success path -/

/-- C1: refuted by evaluation — the claim says a successful
`set_radio(name, choice)` sets every kid's `AS` (to `choice` where the
kid's `AP.N` has the key, `"Off"` elsewhere) *and* the field's own `V` to
`choice`, visible to subsequent reads.  On the embedded code,
`set_radio exRadioForm "R" "A"` succeeds and sets the kids' `AS` entries,
but the field dictionary is left exactly `exRadioField` — its `V` entry is
still absent, because the source performs `field.set("V", choice)` on a
clone of the object map that is immediately dropped — and a subsequent
`get_state` still reports the selected value as `""`, not `"A"`. -/
theorem claim1_code_eval :
    set_radio exRadioForm "R" "A" =
      some
        (Form.mk
          (Document.mk
            [(1, Object.Dict exRadioField),
             (2, Object.Dict
               [("AP", Object.Dict [("N", Object.Dict [("A", Object.Null)])]),
                ("AS", Object.Name "A")]),
             (3, Object.Dict
               [("AP", Object.Dict [("N", Object.Dict [("B", Object.Null)])]),
                ("AS", Object.Name "Off")])]
            [])
          [("R", 1)],
         Except.ok ()) ∧
    dictGet exRadioField "V" = none ∧
    (set_radio exRadioForm "R" "A").map (fun r => get_state r.1 "R") =
      some (some (FieldState.Radio "" ["A", "B"])) := by
  refine ⟨rfl, rfl, rfl⟩

/-! ### C2 — name decoding -/

/-- C2: refuted by evaluation — the claim says a code unit whose high byte
is non-zero decodes to the full 16-bit unit.  The embedded decoder, applied
to the UTF-16BE bytes `FE FF 04 10` (the BOM followed by U+0410), yields
the single character U+0010: the loop *assigns* the low byte over the
previously stored shifted high byte instead of combining them. -/
theorem claim2_code_eval :
    encode_form_name [0xFE, 0xFF, 0x04, 0x10] = some (String.mk [Char.ofNat 0x10]) ∧
    String.mk [Char.ofNat 0x10] ≠ String.mk [Char.ofNat 0x0410] := by
  exact ⟨rfl, by decide⟩

/-! ### C3 — set_radio rejection leaves state unchanged -/

/-- C3: for a field whose current state is Radio, a choice outside the
computed options makes `set_radio` return `InvalidSelection` with the form
unchanged, so a subsequent `get_state` reads exactly what it read before
the call. -/
theorem claim3_set_radio_invalid_rejected (form : Form) (name choice : String) (fid : Nat)
    (sel : String) (opts : List String)
    (hfid : assocGet form.form_fields name = some fid)
    (hstate : get_state form name = some (FieldState.Radio sel opts))
    (hchoice : choice ∉ opts) :
    set_radio form name choice = some (form, Except.error ValueError.InvalidSelection) ∧
    (set_radio form name choice).map (fun r => get_state r.1 name) =
      some (get_state form name) := by
  have hc : opts.contains choice = false := by simpa using hchoice
  have hmain : set_radio form name choice =
      some (form, Except.error ValueError.InvalidSelection) := by
    simp only [set_radio, hfid, hstate, hc, Bool.false_eq_true, if_false]
  exact ⟨hmain, by rw [hmain]; rfl⟩

/-- C3 witness: on the concrete radio form, `"ZZZ"` is not among the
options `["A", "B"]`, the call fails with `InvalidSelection`, and the form
is returned unchanged. -/
theorem claim3_witness :
    set_radio exRadioForm "R" "ZZZ" =
      some (exRadioForm, Except.error ValueError.InvalidSelection) :=
  (claim3_set_radio_invalid_rejected exRadioForm "R" "ZZZ" 1 "" ["A", "B"] rfl rfl
    (by decide)).1

/-! ### C6 — type classification -/

/-- C6: a name missing from the index yields the `DictionaryKeyNotFound`
error; for an indexed field whose `FT` is a name and whose flags resolve
(absent `Ff` resolving to 0), the classification is: `Btn` with bit 15 →
Radio, else bit 16 → Button, else CheckBox; `Ch` with bit 17 (0x20000) →
ComboBox, else ListBox; any other `FT` → Text. -/
theorem claim6_get_type_classification (form : Form) (name : String) :
    (assocGet form.form_fields name = none →
      get_type form name = some (Except.error LoadError.DictionaryKeyNotFound)) ∧
    (∀ fid field ts fl,
      assocGet form.form_fields name = some fid →
      (objGet form.doc fid).bind Object.asDict = some field →
      (dictGet field "FT").bind Object.asNameStr = some ts →
      fieldFlags field = some fl →
      get_type form name =
        some (Except.ok
          (if ts = "Btn" then
            (if fl.testBit 15 then FieldType.Radio
             else if fl.testBit 16 then FieldType.Button
             else FieldType.CheckBox)
           else if ts = "Ch" then
            (if fl.testBit 17 then FieldType.ComboBox else FieldType.ListBox)
           else FieldType.Text))) := by
  constructor
  · intro h
    simp only [get_type, h]
  · intro fid field ts fl h1 h2 h3 h4
    simp only [get_type, h1, h2, h3]
    by_cases hbtn : ts = "Btn"
    · simp [hbtn, h4]
    · by_cases hch : ts = "Ch" <;> simp [hbtn, hch, h4]

/-- C6 witness: the concrete radio field (absent name errors; `FT Btn`
with `Ff = 1<<15` classifies as Radio). -/
theorem claim6_witness :
    get_type exRadioForm "nope" = some (Except.error LoadError.DictionaryKeyNotFound) ∧
    get_type exRadioForm "R" = some (Except.ok FieldType.Radio) := by
  constructor
  · exact (claim6_get_type_classification exRadioForm "nope").1 rfl
  · have h := (claim6_get_type_classification exRadioForm "R").2 1 exRadioField "Btn" 32768
      rfl rfl rfl rfl
    simpa using h

/-! ### C5 — set_choice -/

/-- The membership fold of `set_choice` in terms of `List.all`. -/
theorem foldl_contains_eq (opts : List String) :
    ∀ (choices : List String) (b : Bool),
      choices.foldl (fun a h => opts.contains h && a) b =
        (b && choices.all (fun h => opts.contains h)) := by
  intro choices
  induction choices with
  | nil => intro b; simp
  | cons c cs ih =>
    intro b
    simp only [List.foldl_cons, List.all_cons, ih]
    cases b <;> cases hc : opts.contains c <;> simp

/-- The membership fold of `set_choice` succeeds exactly when every choice
is an option. -/
theorem fold_ok_iff (opts choices : List String) :
    (choices.foldl (fun a h => opts.contains h && a) true = true) ↔
      ∀ c ∈ choices, c ∈ opts := by
  rw [foldl_contains_eq]
  simp [List.all_eq_true]

/-- C5: on a field whose current state is ListBox or ComboBox,
`set_choice` rejects a choice outside the options with `InvalidSelection`
(form unchanged), rejects more than one choice on a single-select field
with `TooManySelected` (form unchanged), and otherwise writes `V` as null /
one literal string / an array of literal strings according to the number of
choices; on a field in any other state it returns `TypeMismatch` (form
unchanged). -/
theorem claim5_set_choice_spec (form : Form) (name : String) (fid : Nat)
    (hfid : assocGet form.form_fields name = some fid) :
    ∀ choices : List String,
      (∀ sel opts ms,
        (get_state form name = some (FieldState.ListBox sel opts ms) ∨
         get_state form name = some (FieldState.ComboBox sel opts ms)) →
        ((∃ c ∈ choices, c ∉ opts) →
          set_choice form name choices =
            some (form, Except.error ValueError.InvalidSelection)) ∧
        ((∀ c ∈ choices, c ∈ opts) → ms = false → 1 < choices.length →
          set_choice form name choices =
            some (form, Except.error ValueError.TooManySelected)) ∧
        (∀ field, (∀ c ∈ choices, c ∈ opts) → (ms = true ∨ choices.length ≤ 1) →
          (objGet form.doc fid).bind Object.asDict = some field →
          set_choice form name choices =
            some
              ({ form with
                  doc := docSet form.doc fid (Object.Dict (dictSet field "V"
                    (match choices with
                     | [] => Object.Null
                     | [c] => Object.Str (utf8Encode c) StringFormat.Literal
                     | _ => Object.Array (choices.map (fun x =>
                         Object.Str (utf8Encode x) StringFormat.Literal))))) },
               Except.ok ()))) ∧
      (∀ st, get_state form name = some st →
        (∀ s o m, st ≠ FieldState.ListBox s o m) →
        (∀ s o m, st ≠ FieldState.ComboBox s o m) →
        set_choice form name choices =
          some (form, Except.error ValueError.TypeMismatch)) := by
  intro choices
  constructor
  · intro sel opts ms hst
    have hset : set_choice form name choices = set_choice_write form fid opts ms choices := by
      rcases hst with h | h <;> simp only [set_choice, hfid, h]
    refine ⟨?_, ?_, ?_⟩
    · rintro ⟨c, hcmem, hcnot⟩
      have hfold : choices.foldl (fun a h => opts.contains h && a) true = false := by
        refine Bool.eq_false_iff.mpr (fun hf => ?_)
        exact hcnot ((fold_ok_iff opts choices).mp hf c hcmem)
      rw [hset]
      simp only [set_choice_write, hfold]
      simp
    · intro hall hms hlen
      subst hms
      have hfold := (fold_ok_iff opts choices).mpr hall
      rw [hset]
      simp only [set_choice_write, hfold]
      simp [hlen]
    · intro field hall hcard hfield
      have hfold := (fold_ok_iff opts choices).mpr hall
      have hcond : (!ms && decide (choices.length > 1)) = false := by
        rcases hcard with h | h
        · simp [h]
        · have : ¬ (choices.length > 1) := by omega
          simp [this]
      rw [hset]
      simp only [set_choice_write, hfold, hcond]
      simp [hfield]
  · intro st hst hnl hnc
    cases st with
    | ListBox s o m => exact absurd rfl (hnl s o m)
    | ComboBox s o m => exact absurd rfl (hnc s o m)
    | Button => simp only [set_choice, hfid, hst]
    | Radio s o => simp only [set_choice, hfid, hst]
    | CheckBox b => simp only [set_choice, hfid, hst]
    | Text t => simp only [set_choice, hfid, hst]

/-- C5 witness: on the concrete single-select list box, selecting both
options at once fails with `TooManySelected` and the form is unchanged. -/
theorem claim5_witness :
    set_choice exListForm "L" ["a", "b"] =
      some (exListForm, Except.error ValueError.TooManySelected) := by
  have h := ((claim5_set_choice_spec exListForm "L" 1 rfl ["a", "b"]).1 [] ["a", "b"] false
    (Or.inl rfl)).2.1
  exact h (by decide) rfl (by decide)

/-! ### C9 — multiselect flag -/

/-- C9 counterexample theorem: the field is classified ListBox, yet
`get_state` does not return at all (the `unwrap` on the absent `Ff`
panics), contradicting the claimed `multiselect = false` normal return. -/
theorem claim9_counterexample :
    get_type exListNoFfForm "L" = some (Except.ok FieldType.ListBox) ∧
    get_state exListNoFfForm "L" = none := by
  exact ⟨rfl, rfl⟩

/-- C9 as amended: for a field classified ListBox / ComboBox, `get_state`
returns `multiselect` equal to bit 0x200000 (bit 21) of the `Ff` integer
*when the dictionary has an integer `Ff` entry*; when `Ff` is absent,
`get_state` panics (returns no state at all) instead of treating it as 0. -/
theorem claim9_amended_multiselect (form : Form) (name : String) (fid : Nat)
    (field : List (String × Object))
    (h1 : assocGet form.form_fields name = some fid)
    (h2 : (objGet form.doc fid).bind Object.asDict = some field) :
    (get_type form name = some (Except.ok FieldType.ListBox) →
      (∀ i sel opts, dictGet field "Ff" = some (Object.Integer i) →
        choiceSelected field = some sel → choiceOptions field = some opts →
        get_state form name =
          some (FieldState.ListBox sel opts (((Int.emod i (2 ^ 32)).toNat).testBit 21))) ∧
      (dictGet field "Ff" = none → get_state form name = none)) ∧
    (get_type form name = some (Except.ok FieldType.ComboBox) →
      (∀ i sel opts, dictGet field "Ff" = some (Object.Integer i) →
        choiceSelected field = some sel → choiceOptions field = some opts →
        get_state form name =
          some (FieldState.ComboBox sel opts (((Int.emod i (2 ^ 32)).toNat).testBit 21))) ∧
      (dictGet field "Ff" = none → get_state form name = none)) := by
  constructor
  · intro hty
    constructor
    · intro i sel opts hff hsel hopt
      simp only [get_state, h1, h2, hty, choiceState, hsel, hopt, choiceMultiselect, hff,
        Object.asI64, Option.map_some]
      rfl
    · intro hff
      simp only [get_state, h1, h2, hty]
      rcases hsel : choiceSelected field with _ | sel <;>
        rcases hopt : choiceOptions field with _ | opts <;>
          simp [choiceState, hsel, hopt, choiceMultiselect, hff]
  · intro hty
    constructor
    · intro i sel opts hff hsel hopt
      simp only [get_state, h1, h2, hty, choiceState, hsel, hopt, choiceMultiselect, hff,
        Object.asI64, Option.map_some]
      rfl
    · intro hff
      simp only [get_state, h1, h2, hty]
      rcases hsel : choiceSelected field with _ | sel <;>
        rcases hopt : choiceOptions field with _ | opts <;>
          simp [choiceState, hsel, hopt, choiceMultiselect, hff]

/-- C9 witness: on the concrete list box with `Ff = 0`, the amended theorem
computes the state with `multiselect = false` (bit 21 of 0). -/
theorem claim9_witness :
    get_state exListForm "L" = some (FieldState.ListBox [] ["a", "b"] false) := by
  have h := ((claim9_amended_multiselect exListForm "L" 1 exListField rfl rfl).1 rfl).1
    0 [] ["a", "b"] rfl rfl rfl
  simpa using h

/-! ### C4 — fuzzy fill resolution -/

/-- C4: resolving the discovered name `Foo[0].Bar` against a mapping that
has no entry for `Foo[0].Bar` or `Foo.Bar` but has one for `Bar` walks the
alternating strip-index / drop-ancestor retry down to `Bar` (for every such
mapping); filling the concrete text field from `{Bar ↦ hi}` applies the
mapped value (the UTF-16 encoding written as `V`, `AP` dropped) without
error; filling it from `{Unrelated ↦ x}` succeeds, raises no error and
leaves the form untouched. -/
theorem claim4_fuzzy_fill :
    (∀ (m : List (String × String)) (v : String),
      assocGet m "Foo[0].Bar" = none → assocGet m "Foo.Bar" = none →
      assocGet m "Bar" = some v →
      resolveName m (splitOnDot "Foo[0].Bar") "Foo[0].Bar" = (["Bar"], "Bar")) ∧
    fill exTextForm [("Bar", "hi")] =
      some
        (Form.mk
          (Document.mk
            [(1, Object.Dict
              [("FT", Object.Name "Tx"),
               ("V", Object.Str (to_pdf_utf16 "hi") StringFormat.Literal)])]
            [])
          [("Foo[0].Bar", 1)],
         none) ∧
    fill exTextForm [("Unrelated", "x")] = some (exTextForm, none) := by
  refine ⟨?_, rfl, rfl⟩
  intro m v h1 h2 h3
  have hsplit : splitOnDot "Foo[0].Bar" = ["Foo[0]", "Bar"] := rfl
  have hstrip : stripIndex "Foo[0].Bar" = "Foo.Bar" := rfl
  have hjoin : String.intercalate "." ["Bar"] = "Bar" := rfl
  rw [hsplit]
  simp only [resolveName, h1, hstrip, h2, hjoin, h3, Option.isSome_none, Option.isSome_some,
    Bool.false_eq_true, if_false, if_true]

/-- C4 witness: the resolution part instantiated at the mapping
`{Bar ↦ v}`. -/
theorem claim4_witness :
    resolveName [("Bar", "v")] (splitOnDot "Foo[0].Bar") "Foo[0].Bar" = (["Bar"], "Bar") :=
  claim4_fuzzy_fill.1 [("Bar", "v")] "v" rfl rfl rfl

/-! ### Shared inversion lemmas about fill and its mutators -/

/-- The Radio arm of the state decoder only ever produces a Radio state. -/
lemma radioState_shape (doc : Document) (fid : Nat) (field : List (String × Object))
    (st : FieldState) (h : radioState doc fid field = some st) :
    ∃ s o, st = FieldState.Radio s o := by
  unfold radioState at h
  split at h
  · simp at h
  · split at h
    · simp at h
    · exact ⟨_, _, (Option.some.injEq _ _ ▸ h).symm⟩

/-- A field classified Radio can only decode to a Radio state. -/
lemma get_state_radio_shape (form : Form) (name : String) (st : FieldState)
    (hty : get_type form name = some (Except.ok FieldType.Radio))
    (hst : get_state form name = some st) :
    ∃ s o, st = FieldState.Radio s o := by
  unfold get_state at hst
  split at hst
  · simp at hst
  · split at hst
    · simp at hst
    · split at hst <;> simp_all
      exact radioState_shape _ _ _ _ hst

/-- On a field classified Radio, `set_radio` can only fail with
`InvalidSelection`, and a failing call returns the form unchanged. -/
lemma set_radio_err (form : Form) (name choice : String) (f' : Form) (e : ValueError)
    (hty : get_type form name = some (Except.ok FieldType.Radio))
    (h : set_radio form name choice = some (f', Except.error e)) :
    f' = form ∧ e = ValueError.InvalidSelection := by
  unfold set_radio at h
  split at h
  · simp at h
  · split at h
    · simp at h
    · split at h
      · split at h
        · simp at h
        · split at h
          · simp at h
          · split at h
            · simp at h
            · simp at h
      · simp only [Option.some.injEq, Prod.mk.injEq, Except.error.injEq] at h
        exact ⟨h.1.symm, h.2.symm⟩
    · rename_i st hdiseq hgs
      obtain ⟨s, o, rfl⟩ := get_state_radio_shape form name st hty hgs
      exact (hdiseq s o rfl).elim

/-- On a field classified CheckBox, `set_check_box` cannot fail. -/
lemma set_check_box_ok_no_err (form : Form) (name : String) (b : Bool) (f' : Form)
    (e : ValueError)
    (hty : get_type form name = some (Except.ok FieldType.CheckBox))
    (h : set_check_box form name b = some (f', Except.error e)) : False := by
  unfold set_check_box at h
  split at h
  · simp at h
  · split at h
    all_goals split at h
    all_goals first
      | (split at h <;> simp at h)
      | simp at h
  · rename_i x hdiseq heq
    rw [hty] at heq
    injection heq with heq
    exact hdiseq heq.symm

/-- On a field classified Text, `set_text` cannot fail. -/
lemma set_text_ok_no_err (form : Form) (name s : String) (f' : Form) (e : ValueError)
    (hty : get_type form name = some (Except.ok FieldType.Text))
    (h : set_text form name s = some (f', Except.error e)) : False := by
  unfold set_text at h
  split at h
  · simp at h
  · split at h
    · simp at h
    · split at h
      · simp at h
      · simp at h
  · rename_i x hdiseq heq
    rw [hty] at heq
    injection heq with heq
    exact hdiseq heq.symm

/-- A fill step that produces a `FieldError` leaves the form unchanged,
carries the `InvalidSelection` cause, and records the resolved key together
with the raw value the input mapping holds for it. -/
lemma fillField_err (fieldsMap : List (String × String)) (form : Form) (fname : String)
    (f' : Form) (e : FieldError)
    (h : fillField fieldsMap form fname = some (f', some e)) :
    f' = form ∧ e.error = ValueError.InvalidSelection ∧
    (resolveName fieldsMap (splitOnDot fname) fname).1 ≠ [] ∧
    e.field = (resolveName fieldsMap (splitOnDot fname) fname).2 ∧
    assocGet fieldsMap e.field = some e.value := by
  unfold fillField at h
  try simp only [] at h
  split at h
  · -- resolver exhausted: the field is skipped, no error
    simp at h
  · rename_i hpr
    split at h
    · -- the map_v unwrap panics: no error value
      simp at h
    · rename_i mapV hmap
      split at h
      · -- get_type panics
        simp at h
      · -- Radio dispatch
        rename_i hty
        cases hsr : set_radio form fname mapV with
        | none => rw [hsr] at h; simp at h
        | some r =>
          rw [hsr] at h
          obtain ⟨f2, res⟩ := r
          cases res with
          | ok u => simp [wrapResult] at h
          | error ve =>
            simp only [Option.map, wrapResult, Option.some.injEq, Prod.mk.injEq] at h
            obtain ⟨hf, he⟩ := h
            obtain ⟨hfo, hinv⟩ := set_radio_err form fname mapV f2 ve hty hsr
            subst hfo
            subst he
            subst hinv
            exact ⟨hf.symm, rfl, hpr, rfl, hmap⟩
      · -- CheckBox dispatch: cannot fail
        rename_i hty
        cases hscb : set_check_box form fname (decide (toLowercaseStr mapV = "true")) with
        | none => rw [hscb] at h; simp at h
        | some r =>
          rw [hscb] at h
          obtain ⟨f2, res⟩ := r
          cases res with
          | ok u => simp [wrapResult] at h
          | error ve => exact (set_check_box_ok_no_err form fname _ f2 ve hty hscb).elim
      · -- Text dispatch: cannot fail
        rename_i hty
        cases hst : set_text form fname mapV with
        | none => rw [hst] at h; simp at h
        | some r =>
          rw [hst] at h
          obtain ⟨f2, res⟩ := r
          cases res with
          | ok u => simp [wrapResult] at h
          | error ve => exact (set_text_ok_no_err form fname mapV f2 ve hty hst).elim
      · -- every other classification is skipped without error
        simp at h

/-- A failing fill splits the processed names into a successful prefix,
the failing field (whose step leaves the state unchanged) and an untouched
suffix; the final state is the state after the prefix alone. -/
lemma fillLoop_err_decomp (fieldsMap : List (String × String)) :
    ∀ (names : List String) (form form' : Form) (e : FieldError),
      fillLoop fieldsMap form names = some (form', some e) →
      ∃ pre bad post form1,
        names = pre ++ bad :: post ∧
        fillLoop fieldsMap form pre = some (form1, none) ∧
        fillField fieldsMap form1 bad = some (form1, some e) ∧
        form' = form1 := by
  intro names
  induction names with
  | nil => intro form form' e h; simp [fillLoop] at h
  | cons n rest ih =>
    intro form form' e h
    unfold fillLoop at h
    cases hf : fillField fieldsMap form n with
    | none => rw [hf] at h; simp at h
    | some r =>
      rw [hf] at h
      obtain ⟨f2, oe⟩ := r
      cases oe with
      | some e2 =>
        simp only [Option.some.injEq, Prod.mk.injEq] at h
        obtain ⟨hform', he⟩ := h
        obtain ⟨hff, _, _, _, _⟩ := fillField_err fieldsMap form n f2 e2 hf
        subst hff
        refine ⟨[], n, rest, f2, rfl, rfl, ?_, hform'.symm⟩
        rw [hf, he]
      | none =>
        obtain ⟨pre, bad, post, f1, hdec, hpre, hbad, heq⟩ := ih f2 form' e h
        refine ⟨n :: pre, bad, post, f1, by rw [hdec]; simp, ?_, hbad, heq⟩
        unfold fillLoop
        rw [hf]
        exact hpre

/-! ### C7 — fill fails fast -/

/-- C7: when `fill` returns a `FieldError`, the iterated field names split
into a prefix the loop processed successfully, the failing field, and a
suffix that was never processed; the returned document state is exactly the
state after the prefix (the failing field and everything after it are
unmodified), and the error carries the matched key name and the raw value
the input mapping holds for that key, its cause being the mutation's
`ValueError`. -/
theorem claim7_fill_fail_fast (form : Form) (fieldsMap : List (String × String))
    (form' : Form) (e : FieldError)
    (h : fill form fieldsMap = some (form', some e)) :
    ∃ pre bad post form1,
      form.form_fields.map Prod.fst = pre ++ bad :: post ∧
      fillLoop fieldsMap form pre = some (form1, none) ∧
      fillField fieldsMap form1 bad = some (form1, some e) ∧
      form' = form1 ∧
      e.field = (resolveName fieldsMap (splitOnDot bad) bad).2 ∧
      assocGet fieldsMap e.field = some e.value := by
  obtain ⟨pre, bad, post, f1, hdec, hpre, hbad, heq⟩ :=
    fillLoop_err_decomp fieldsMap (form.form_fields.map Prod.fst) form form' e h
  obtain ⟨_, _, _, hfield, hval⟩ := fillField_err fieldsMap f1 bad f1 e hbad
  exact ⟨pre, bad, post, f1, hdec, hpre, hbad, heq, hfield, hval⟩

/-- C7 witness: filling the concrete radio form with an invalid choice
produces the decomposition at the concrete error. -/
theorem claim7_witness :
    ∃ pre bad post form1,
      exRadioForm.form_fields.map Prod.fst = pre ++ bad :: post ∧
      fillLoop [("R", "ZZZ")] exRadioForm pre = some (form1, none) ∧
      fillField [("R", "ZZZ")] form1 bad =
        some (form1, some (FieldError.mk ValueError.InvalidSelection "R" "ZZZ")) ∧
      exRadioForm = form1 ∧
      (FieldError.mk ValueError.InvalidSelection "R" "ZZZ").field =
        (resolveName [("R", "ZZZ")] (splitOnDot bad) bad).2 ∧
      assocGet [("R", "ZZZ")] (FieldError.mk ValueError.InvalidSelection "R" "ZZZ").field =
        some (FieldError.mk ValueError.InvalidSelection "R" "ZZZ").value :=
  claim7_fill_fail_fast exRadioForm [("R", "ZZZ")] exRadioForm
    (FieldError.mk ValueError.InvalidSelection "R" "ZZZ") rfl

/-! ### C10 — the only fill error cause is InvalidSelection -/

/-- C10: whenever `fill` returns a `FieldError`, its `ValueError` cause is
`InvalidSelection` — never `TypeMismatch` or `TooManySelected`: the
dispatch calls each mutator only on a field freshly classified with the
matching type (so the type precondition holds and `set_check_box` /
`set_text` cannot fail), and `set_choice` is never called by `fill`. -/
theorem claim10_fill_error_cause (form : Form) (fieldsMap : List (String × String))
    (form' : Form) (e : FieldError)
    (h : fill form fieldsMap = some (form', some e)) :
    e.error = ValueError.InvalidSelection := by
  obtain ⟨pre, bad, post, f1, hdec, hpre, hbad, heq⟩ :=
    fillLoop_err_decomp fieldsMap (form.form_fields.map Prod.fst) form form' e h
  exact (fillField_err fieldsMap f1 bad f1 e hbad).2.1

/-- C10 witness: the concrete failing fill on the radio form carries the
`InvalidSelection` cause. -/
theorem claim10_witness :
    (FieldError.mk ValueError.InvalidSelection "R" "ZZZ").error =
      ValueError.InvalidSelection :=
  claim10_fill_error_cause exRadioForm [("R", "ZZZ")] exRadioForm
    (FieldError.mk ValueError.InvalidSelection "R" "ZZZ") rfl

/-! ### C8 — loading and field-name resolution -/

/-- A successful dereference comes from a reference whose target exists. -/
lemma derefE_ok (doc : Document) (o : Object) (x : Object) (h : derefE doc o = Except.ok x) :
    ∃ oid, o = Object.Reference oid ∧ objGet doc oid = some x := by
  cases o with
  | Null => simp [derefE] at h
  | Boolean b => simp [derefE] at h
  | Integer i => simp [derefE] at h
  | Name s => simp [derefE] at h
  | Str bs f => simp [derefE] at h
  | Array es => simp [derefE] at h
  | Dict es => simp [derefE] at h
  | Reference oid =>
    refine ⟨oid, rfl, ?_⟩
    simp only [derefE] at h
    cases hg : objGet doc oid with
    | none => rw [hg] at h; simp at h
    | some y => rw [hg] at h; simpa using h

/-- Entries after an insert-or-update are old entries or the new pair. -/
lemma assocSet_mem {α β : Type} [DecidableEq α] (l : List (α × β)) (k : α) (v : β) :
    ∀ x ∈ assocSet l k v, x ∈ l ∨ x = (k, v) := by
  induction l with
  | nil => intro x hx; simp [assocSet] at hx; simp [hx]
  | cons p rest ih =>
    intro x hx
    obtain ⟨pk, pv⟩ := p
    unfold assocSet at hx
    by_cases hk : pk = k
    · rw [if_pos hk] at hx
      rcases List.mem_cons.mp hx with hx | hx
      · right; rw [hx, hk]
      · left; exact List.mem_cons_of_mem _ hx
    · rw [if_neg hk] at hx
      rcases List.mem_cons.mp hx with hx | hx
      · left; exact hx ▸ List.mem_cons_self _ _
      · rcases ih x hx with h | h
        · left; exact List.mem_cons_of_mem _ h
        · right; exact h

/-- A key appearing among the keys of an association list has a first
entry, and that entry is in the list. -/
lemma assocGet_of_fst_mem {α β : Type} [DecidableEq α] (l : List (α × β)) (k : α)
    (h : k ∈ l.map Prod.fst) : ∃ v, assocGet l k = some v ∧ (k, v) ∈ l := by
  induction l with
  | nil => simp at h
  | cons p rest ih =>
    obtain ⟨pk, pv⟩ := p
    by_cases hk : pk = k
    · exact ⟨pv, by simp [assocGet, hk], by simp [hk]⟩
    · have h' : k ∈ rest.map Prod.fst := by
        simp only [List.map_cons, List.mem_cons] at h
        rcases h with hx | hx
        · exact absurd hx.symm hk
        · exact hx
      obtain ⟨v, hg, hm⟩ := ih h'
      exact ⟨v, by simp [assocGet, hk, hg], List.mem_cons_of_mem _ hm⟩

/-- The load traversal only ever registers ids that dereference to a
dictionary with an `FT` key. -/
lemma load_loop_inv (doc : Document) :
    ∀ (fuel : Nat) (queue : List Object) (map map' : List (String × Nat)),
      (∀ p ∈ map, registeredOk doc p.2) →
      load_loop doc fuel queue map = some (Except.ok map') →
      ∀ p ∈ map', registeredOk doc p.2 := by
  intro fuel
  induction fuel with
  | zero =>
    intro queue map map' hinv h
    cases queue with
    | nil =>
      simp only [load_loop, Option.some.injEq, Except.ok.injEq] at h
      exact h ▸ hinv
    | cons a rest => simp [load_loop] at h
  | succ fuel ih =>
    intro queue map map' hinv h
    cases queue with
    | nil =>
      simp only [load_loop, Option.some.injEq, Except.ok.injEq] at h
      exact h ▸ hinv
    | cons objref rest =>
      unfold load_loop at h
      cases hd : derefE doc objref with
      | error e => rw [hd] at h; simp at h
      | ok obj =>
        rw [hd] at h
        cases obj with
        | Dict dict =>
          obtain ⟨oid, hor, hog⟩ := derefE_ok doc objref (Object.Dict dict) hd
          subst hor
          simp only [Object.asReference] at h
          by_cases hft : (dictGet dict "FT").isSome
          · rw [if_pos hft] at h
            cases hgf : get_full_name doc (doc.objects.length + 1) oid with
            | none =>
              rw [hgf] at h
              exact ih _ _ _ hinv h
            | some nm =>
              rw [hgf] at h
              refine ih _ _ _ ?_ h
              intro p hp
              rcases assocSet_mem map nm oid p hp with hmem | hnew
              · exact hinv p hmem
              · rw [hnew]
                exact ⟨dict, hog, hft⟩
          · rw [if_neg hft] at h
            exact ih _ _ _ hinv h
        | Null => exact ih _ _ _ hinv h
        | Boolean b => exact ih _ _ _ hinv h
        | Integer i => exact ih _ _ _ hinv h
        | Name s => exact ih _ _ _ hinv h
        | Str bs f => exact ih _ _ _ hinv h
        | Array es => exact ih _ _ _ hinv h
        | Reference r => exact ih _ _ _ hinv h

/-- A successfully loaded form carries the input document and an index in
which every entry satisfies the registration guarantee. -/
lemma load_doc_ok (doc : Document) (fuel : Nat) (form : Form)
    (h : load_doc doc fuel = some (Except.ok form)) :
    form.doc = doc ∧ ∀ p ∈ form.form_fields, registeredOk doc p.2 := by
  unfold load_doc at h
  split at h
  · simp at h
  · split at h
    · simp at h
    · split at h
      · simp at h
      · split at h
        · simp at h
        · split at h
          · simp at h
          · split at h
            · simp at h
            · split at h
              · simp at h
              · split at h
                · simp at h
                · rename_i fieldsList hfl
                  cases hll : load_loop doc fuel fieldsList [] with
                  | none => rw [hll] at h; simp at h
                  | some r =>
                    rw [hll] at h
                    cases r with
                    | error e => simp [Except.map] at h
                    | ok map =>
                      simp only [Option.map, Except.map, Option.some.injEq,
                        Except.ok.injEq] at h
                      subst h
                      exact ⟨rfl, load_loop_inv doc fuel fieldsList [] map (by simp) hll⟩

/-- `get_type` never returns a `LoadError` for a name whose index entry
carries the registration guarantee (it can still panic on a malformed `FT`
or `Ff`, but a returned value is always a `FieldType`). -/
lemma get_type_no_error (form : Form) (name : String) (oid : Nat)
    (hget : assocGet form.form_fields name = some oid)
    (hreg : registeredOk form.doc oid) :
    ∀ e, get_type form name ≠ some (Except.error e) := by
  obtain ⟨d, hobj, hft⟩ := hreg
  intro e hcontra
  have hbind : (objGet form.doc oid).bind Object.asDict = some d := by
    rw [hobj]; rfl
  simp only [get_type, hget, hbind] at hcontra
  rcases hnm : (dictGet d "FT").bind Object.asNameStr with _ | ts <;>
    simp only [hnm] at hcontra
  · simp at hcontra
  · by_cases hbtn : ts = "Btn"
    · rcases hfl : fieldFlags d with _ | fl <;> simp [hbtn, hfl] at hcontra
    · by_cases hch : ts = "Ch"
      · rcases hfl : fieldFlags d with _ | fl <;> simp [hbtn, hch, hfl] at hcontra
      · simp [hbtn, hch] at hcontra

/-- C8 counterexample: a valid document (its load succeeds) whose AcroForm
`Fields` array is non-empty yet whose loaded form has an *empty*
`get_field_names()` — the single field has no decodable `T` name, so the
traversal registers nothing.  The claim's "non-empty sequence" conclusion
is false for this document. -/
theorem claim8_counterexample :
    load_doc exNoNameDoc 9 = some (Except.ok (Form.mk exNoNameDoc [])) ∧
    (∃ acroform fieldsList, objGet exNoNameDoc 2 = some (Object.Dict acroform) ∧
      dictGet acroform "Fields" = some (Object.Array fieldsList) ∧ fieldsList ≠ []) ∧
    get_field_names (Form.mk exNoNameDoc []) = [] := by
  exact ⟨rfl,
    ⟨[("Fields", Object.Array [Object.Reference 3])], [Object.Reference 3], rfl, rfl,
      by simp⟩,
    rfl⟩

/-- C8 as amended: for every document whose load succeeds,
`get_field_names()` is non-empty exactly when the traversal registered at
least one field (a field without a decodable `T` name is skipped, so the
sequence can be empty even for a non-empty `Fields` array), and no name it
returns makes `get_type` return a `LoadError` — `get_type` yields a
`FieldType` whenever it returns at all. -/
theorem claim8_amended_load (doc : Document) (fuel : Nat) (form : Form)
    (h : load_doc doc fuel = some (Except.ok form)) :
    (get_field_names form = [] ↔ form.form_fields = []) ∧
    ∀ name ∈ get_field_names form, ∀ e, get_type form name ≠ some (Except.error e) := by
  obtain ⟨hdoc, hinv⟩ := load_doc_ok doc fuel form h
  constructor
  · simp [get_field_names]
  · intro name hname e
    obtain ⟨oid, hget, hmem⟩ := assocGet_of_fst_mem form.form_fields name hname
    refine get_type_no_error form name oid hget ?_ e
    rw [hdoc]
    exact hinv (name, oid) hmem

/-- C8 witness: the named document loads to the index `[(X, 3)]`; its name
list is non-empty and `get_type` on `X` does not return a `LoadError`. -/
theorem claim8_witness :
    get_field_names (Form.mk exNamedDoc [("X", 3)]) ≠ [] ∧
    get_type (Form.mk exNamedDoc [("X", 3)]) "X" ≠
      some (Except.error LoadError.UnexpectedType) := by
  have h := claim8_amended_load exNamedDoc 9 (Form.mk exNamedDoc [("X", 3)]) rfl
  constructor
  · intro hc
    have h2 := h.1.mp hc
    simp at h2
  · exact h.2 "X" (by simp [get_field_names]) LoadError.UnexpectedType

end PdfForm
